import Mathlib

/-!
# queuectl — verification of the scheduling core

A shallow embedding of the queuectl job-queue core (job store, scheduler
tick, worker-reply handling, retry/backoff policy, DLQ routes, shutdown
lifecycle), translated from the JavaScript sources:

* `src/worker/workerManager.js` — `tick`, `handleWorkerMessage`, `resetStuckJob`
* `src/api/dlq.routes.js`       — DLQ list / retry-one / retry-all routes
* `src/api/job.routes.js`       — enqueue / list routes
* `src/api/config.routes.js`    — config get/set routes (`validateAndSanitize`)
* `src/worker/lifecycle.js`     — `initiateShutdown`, `awaitIdleAndExit`
* `src/db/db.js`                — `saveDb`
* `src/job/job.js`              — `enqueueJob`, `getJobs`

The jobs table is a `List Job` in row (insertion) order; a SQL `UPDATE ...
WHERE p` is a `List.map` that rewrites exactly the rows satisfying `p`.
Epoch-millisecond timestamps are `Nat`.  Config values are stored as
validated integers (the JS code stores decimal strings and re-parses them
with `parseInt` at each use).
-/

namespace Queuectl

/-- Job states.  `failed` is a reserved value: the list filter accepts it but
no transition writes it. -/
inductive JState where
  | pending
  | processing
  | completed
  | failed
  | dead
deriving DecidableEq, Repr

/-- A row of the `jobs` table (schema in `src/db/db.js`).  `max_retries` is
`none` when the column is SQL NULL. -/
structure Job where
  id : String
  command : String
  state : JState
  attempts : Nat
  max_retries : Option Nat
  run_after : Nat
  created_at : Nat
  updated_at : Nat
deriving DecidableEq, Repr

/-- The in-memory config object, with each recognized key already parsed by
`parseInt` (the values are validated integers, see `CONFIG_SCHEMA` in
`src/api/config.routes.js`). -/
structure Config where
  max_retries : Nat
  backoff_base : Nat
  backoff_factor_ms : Nat
deriving DecidableEq, Repr

/-- `UPDATE jobs SET ... WHERE p`: rewrite every row satisfying the WHERE
predicate in place, leaving the others untouched. -/
def updateWhere (p : Job → Prop) [DecidablePred p] (g : Job → Job)
    (jobs : List Job) : List Job :=
  jobs.map (fun j => if p j then g j else j)

/-- `UPDATE jobs SET ... WHERE id = $id`: rewrite every row whose id matches
(ids are unique by PRIMARY KEY, so at most one row in well-formed tables). -/
def updateJob (jobs : List Job) (id : String) (f : Job → Job) : List Job :=
  updateWhere (fun j => j.id = id) f jobs

/-- Retry/backoff decision of `handleWorkerMessage` for a `failed` reply
(`src/worker/workerManager.js` lines 149-156):

```js
const newAttempts = (job.attempts || 0) + 1;
const maxRetries = job.max_retries ?? parseInt(this.config.max_retries, 10);
let newState = newAttempts > maxRetries ? 'dead' : 'pending';
const base = parseInt(this.config.backoff_base, 10);
const factor = parseInt(this.config.backoff_factor_ms, 10);
let newRunAfter = Date.now() + Math.pow(base, newAttempts) * factor;
```

`Math.pow` over doubles is exact on the integer ranges exercised here; no
clamping of any kind is applied to `newRunAfter`. -/
structure FailResult where
  newAttempts : Nat
  newState : JState
  newRunAfter : Nat
deriving DecidableEq, Repr

def failOutcome (cfg : Config) (attempts : Nat) (max_retries : Option Nat)
    (now : Nat) : FailResult :=
  let newAttempts := attempts + 1
  let maxRetries := max_retries.getD cfg.max_retries
  let newState := if newAttempts > maxRetries then JState.dead else JState.pending
  let newRunAfter := now + cfg.backoff_base ^ newAttempts * cfg.backoff_factor_ms
  ⟨newAttempts, newState, newRunAfter⟩

/-- The state/attempts part of a job that fails on every attempt: state and
attempts after `n` consecutive `failed` replies, starting from a fresh job
(`state = pending`, `attempts = 0`), each reply processed by the
`failOutcome` computation above. -/
def runFailures (cfg : Config) (max_retries : Option Nat) (now : Nat) :
    Nat → JState × Nat
  | 0 => (JState.pending, 0)
  | n + 1 =>
    let prev := runFailures cfg max_retries now n
    let r := failOutcome cfg prev.2 max_retries now
    (r.newState, r.newAttempts)

/-- Eligibility test of the tick query (`src/worker/workerManager.js` line 52):
`state = 'pending' AND run_after <= $now`. -/
def eligible (now : Nat) (j : Job) : Bool :=
  decide (j.state = JState.pending ∧ j.run_after ≤ now)

/-- Scan of the eligible rows keeping the current minimum of `created_at`,
replacing it only on a strictly smaller key: this is the behaviour of
`ORDER BY created_at ASC LIMIT 1`, which returns the first row in scan order
among those with the minimal `created_at` (the SQL has no secondary sort key,
so ties are broken by row order, not by id). -/
def pickMin (best : Job) : List Job → Job
  | [] => best
  | j :: rest => pickMin (if j.created_at < best.created_at then j else best) rest

/-- The SELECT of `tick`:
`SELECT * FROM jobs WHERE state = 'pending' AND run_after <= $now ORDER BY created_at ASC LIMIT 1`. -/
def claimNext (now : Nat) (jobs : List Job) : Option Job :=
  match jobs.filter (eligible now) with
  | [] => none
  | j :: rest => some (pickMin j rest)

/-- The UPDATE of `tick`:
`UPDATE jobs SET state = 'processing', updated_at = $now WHERE id = $id`. -/
def setProcessing (now : Nat) (j : Job) : Job :=
  { j with state := JState.processing, updated_at := now }

/-- Jobs-table effect of one scheduler tick (`tick` in
`src/worker/workerManager.js`).  The guards (shutting down, re-entrance,
empty worker queue) return the table unchanged; the re-entrance flag
`isTicking` is irrelevant in this single-threaded model.  `idleCount` is
`workerQueue.length`. -/
def tickJobs (shuttingDown : Bool) (idleCount : Nat) (now : Nat)
    (jobs : List Job) : List Job :=
  if shuttingDown ∨ idleCount = 0 then jobs
  else
    match claimNext now jobs with
    | none => jobs
    | some j => updateJob jobs j.id (setProcessing now)

/-- Selection rule stated by the spec sentence for `claim_next`: smallest
`created_at`, ties broken by id in lexicographic order (the lexicographic
order on the id's character sequence, `id.data`).  This definition follows
the spec words, for comparison with `claimNext` above (which is translated
from the SQL). -/
def specClaimNext (now : Nat) (jobs : List Job) : Option Job :=
  match jobs.filter (eligible now) with
  | [] => none
  | j :: rest =>
    some (rest.foldl
      (fun best k =>
        if k.created_at < best.created_at ∨
            (k.created_at = best.created_at ∧ k.id.data < best.id.data) then k
        else best)
      j)

/-- Completed-reply UPDATE of `handleWorkerMessage`:
`UPDATE jobs SET state = 'completed', updated_at = $now WHERE id = $id`. -/
def completeUpdate (jobs : List Job) (id : String) (now : Nat) : List Job :=
  updateJob jobs id (fun j => { j with state := JState.completed, updated_at := now })

/-- Failed-reply UPDATE of `handleWorkerMessage`:
`UPDATE jobs SET state, updated_at, attempts, run_after WHERE id = $id`,
with the new values computed by `failOutcome` from the attempts and
max_retries carried by the reply's job object. -/
def failUpdate (cfg : Config) (jobs : List Job) (id : String) (attempts : Nat)
    (max_retries : Option Nat) (now : Nat) : List Job :=
  let r := failOutcome cfg attempts max_retries now
  updateJob jobs id (fun j =>
    { j with state := r.newState, updated_at := now,
             attempts := r.newAttempts, run_after := r.newRunAfter })

/-- Crash-recovery UPDATE of `resetStuckJob`:
`UPDATE jobs SET state = 'pending', updated_at = $now WHERE id = $id AND state = 'processing'`. -/
def resetStuck (now : Nat) (j : Job) : Job :=
  { j with state := JState.pending, updated_at := now }

def resetProcessing (jobs : List Job) (id : String) (now : Nat) : List Job :=
  updateWhere (fun j => j.id = id ∧ j.state = JState.processing)
    (resetStuck now) jobs

/-- DLQ requeue row rewrite (`src/api/dlq.routes.js`):
`SET state = 'pending', attempts = 0, run_after = 0, updated_at = $now`. -/
def requeueDead (now : Nat) (j : Job) : Job :=
  { j with state := JState.pending, attempts := 0, run_after := 0, updated_at := now }

/-- The route's blank-id test `!jobId || jobId.trim() === ''`
(`src/api/dlq.routes.js` line 38): true exactly when the id consists only
of whitespace characters (in particular when it is empty), which is
precisely when `trim` yields the empty string. -/
def isBlank (id : String) : Bool := id.data.all Char.isWhitespace

/-- UPDATE of `POST /dlq/retry/:id`:
`... WHERE id = $id AND state = 'dead'`. -/
def requeueOneUpdate (id : String) (now : Nat) (jobs : List Job) : List Job :=
  updateWhere (fun j => j.id = id ∧ j.state = JState.dead) (requeueDead now) jobs

/-- UPDATE of `POST /dlq/retry-all`: `... WHERE state = 'dead'`. -/
def requeueAllUpdate (now : Nat) (jobs : List Job) : List Job :=
  updateWhere (fun j => j.state = JState.dead) (requeueDead now) jobs

/-- Route `POST /dlq/retry/:id`.  The result is the HTTP status code paired
with the jobs table after the request.  The source runs the guarded UPDATE
and inspects `result.changes`, the number of rows matching
`id = $id AND state = 'dead'`. -/
def dlqRetryOne (shuttingDown : Bool) (id : String) (now : Nat)
    (jobs : List Job) : Nat × List Job :=
  if shuttingDown then (503, jobs)
  else if isBlank id then (400, jobs)
  else if jobs.countP (fun j => decide (j.id = id ∧ j.state = JState.dead)) = 0 then
    (404, requeueOneUpdate id now jobs)
  else (200, requeueOneUpdate id now jobs)

/-- Route `POST /dlq/retry-all`: same rewrite without the id restriction;
404 when no row was in `dead`, 200 otherwise. -/
def dlqRetryAll (shuttingDown : Bool) (now : Nat) (jobs : List Job) :
    Nat × List Job :=
  if shuttingDown then (503, jobs)
  else if jobs.countP (fun j => decide (j.state = JState.dead)) = 0 then
    (404, requeueAllUpdate now jobs)
  else (200, requeueAllUpdate now jobs)

/-- Enqueue payload after the defaulting done in `enqueueJob`
(`src/job/job.js`): `id = jobData.id || uuidv4()` (so the id here is the
non-empty final id), `run_after = jobData.run_after || 0`;
`max_retries` is stored as NULL when absent. -/
structure EnqueueData where
  id : String
  command : String
  max_retries : Option Nat
  run_after : Nat
deriving DecidableEq, Repr

def newJob (id command : String) (max_retries : Option Nat)
    (run_after now : Nat) : Job :=
  { id := id, command := command, state := JState.pending, attempts := 0,
    max_retries := max_retries, run_after := run_after,
    created_at := now, updated_at := now }

/-- Route `POST /enqueue` (`src/api/job.routes.js`): refused with 503 while
shutting down; a PRIMARY KEY collision makes the INSERT throw, reported as
500 with no row added; otherwise the new row is appended and 201 returned. -/
def enqueueRoute (shuttingDown : Bool) (now : Nat) (jobs : List Job)
    (d : EnqueueData) : Nat × List Job :=
  if shuttingDown then (503, jobs)
  else if jobs.any (fun j => decide (j.id = d.id)) then (500, jobs)
  else (201, jobs ++ [newJob d.id d.command d.max_retries d.run_after now])

/-- Read query of `getJobs` (`src/job/job.js`):
`SELECT * FROM jobs [WHERE state = ?] ORDER BY created_at DESC`. -/
def getJobs (filter : Option JState) (jobs : List Job) : List Job :=
  let rows : List Job := match filter with
    | some st => jobs.filter (fun j => decide (j.state = st))
    | none => jobs
  rows.mergeSort (fun a b => decide (b.created_at ≤ a.created_at))

/-- Route `GET /list`: no shutting-down guard in the source, so the flag is
accepted and ignored here. -/
def listRoute (shuttingDown : Bool) (filter : Option JState)
    (jobs : List Job) : Nat × List Job :=
  (200, getJobs filter jobs)

/-- Route `GET /dlq`: lists the `dead` rows; no shutting-down guard. -/
def dlqListRoute (shuttingDown : Bool) (jobs : List Job) : Nat × List Job :=
  (200, getJobs (some JState.dead) jobs)

/-- Job counts of `GET /status` (pending, processing, completed, failed,
dead); no shutting-down guard. -/
def statusCounts (jobs : List Job) : Nat × Nat × Nat × Nat × Nat :=
  (jobs.countP (fun j => decide (j.state = JState.pending)),
   jobs.countP (fun j => decide (j.state = JState.processing)),
   jobs.countP (fun j => decide (j.state = JState.completed)),
   jobs.countP (fun j => decide (j.state = JState.failed)),
   jobs.countP (fun j => decide (j.state = JState.dead)))

def statusRoute (shuttingDown : Bool) (jobs : List Job) :
    Nat × (Nat × Nat × Nat × Nat × Nat) :=
  (200, statusCounts jobs)

/-- Minimum bound of each recognized integer config key (`CONFIG_SCHEMA` in
`src/api/config.routes.js`); `none` for unknown keys, which are accepted as
plain strings. -/
def CONFIG_SCHEMA : String → Option Nat
  | "max_retries" => some 0
  | "backoff_base" => some 1
  | "backoff_factor_ms" => some 0
  | "tick_interval_ms" => some 50
  | "save_interval_ms" => some 1000
  | _ => none

/-- In-memory config object update `config[key] = sanitizedValue`. -/
def upsert (store : List (String × Int)) (key : String) (value : Int) :
    List (String × Int) :=
  if store.any (fun p => decide (p.1 = key)) then
    store.map (fun p => if p.1 = key then (key, value) else p)
  else store ++ [(key, value)]

/-- Route `POST /config` (`createConfigRouter` in
`src/api/config.routes.js`): validates against `CONFIG_SCHEMA` (the value
here is already the `parseInt` result; the NaN branch of an unparseable
input is not modelled, no claim touches it) and performs the update.
This handler performs no `isShuttingDown` check, unlike the enqueue and DLQ
handlers. -/
def configSetRoute (shuttingDown : Bool) (store : List (String × Int))
    (key : String) (value : Int) : Nat × List (String × Int) :=
  match CONFIG_SCHEMA key with
  | some mn => if value < (mn : Int) then (400, store) else (200, upsert store key value)
  | none => (200, upsert store key value)

/-- Route `GET /config/:key`: 200 when the key is present, 404 otherwise;
no shutting-down guard. -/
def configGetRoute (shuttingDown : Bool) (store : List (String × Int))
    (key : String) : Nat :=
  if store.any (fun p => decide (p.1 = key)) then 200 else 404

/-- Job record carried by a worker reply, as read by `handleWorkerMessage`:
`job.attempts` is used as `(job.attempts || 0)` so an absent attempts field
is 0 here; an absent id and an empty id are both falsy in the source's
`job && job.id` test, so an absent id is modelled as `""`. -/
structure MsgJob where
  id : String
  attempts : Nat
  max_retries : Option Nat
deriving DecidableEq, Repr

inductive MsgStatus where
  | ready
  | completed
  | failed
deriving DecidableEq, Repr

/-- A message from a worker child: `{status: 'ready'}` or
`{status: 'completed'|'failed', job, ...}`. -/
structure WMessage where
  status : MsgStatus
  job : Option MsgJob
deriving DecidableEq, Repr

/-- The manager state touched by `handleWorkerMessage`: the jobs table, the
queue of available workers (pids) and the worker-to-job binding map. -/
structure MgrState where
  jobs : List Job
  workerQueue : List Nat
  workerJobMap : List (Nat × String)
deriving DecidableEq, Repr

/-- The jobs-table write of a terminal reply, by status. -/
def applyTerminal (cfg : Config) (now : Nat) (jobs : List Job)
    (status : MsgStatus) (mj : MsgJob) : List Job :=
  match status with
  | MsgStatus.completed => completeUpdate jobs mj.id now
  | MsgStatus.failed => failUpdate cfg jobs mj.id mj.attempts mj.max_retries now
  | MsgStatus.ready => jobs

/-- Translation of `handleWorkerMessage` (`src/worker/workerManager.js`
lines 123-181): a `ready` message pushes the worker onto the queue; a
terminal message with a truthy `job.id` deletes the worker's binding and
applies the corresponding UPDATE; an invalid job record is only logged.
In every branch the worker is pushed back onto the available queue. -/
def handleWorkerMessage (cfg : Config) (now : Nat) (s : MgrState) (w : Nat)
    (msg : WMessage) : MgrState :=
  if msg.status = MsgStatus.ready then
    { s with workerQueue := s.workerQueue ++ [w] }
  else
    match msg.job with
    | some mj =>
      if mj.id ≠ "" then
        { jobs := applyTerminal cfg now s.jobs msg.status mj,
          workerQueue := s.workerQueue ++ [w],
          workerJobMap := s.workerJobMap.filter (fun p => decide (p.1 ≠ w)) }
      else { s with workerQueue := s.workerQueue ++ [w] }
    | none => { s with workerQueue := s.workerQueue ++ [w] }

/-- Outcome of the final step of shutdown: whether a snapshot was attempted
and the process exit code. -/
structure ShutdownOutcome where
  snapshotAttempted : Bool
  exitCode : Nat
deriving DecidableEq, Repr

/-- Translation of `awaitIdleAndExit` (`src/worker/lifecycle.js`): it calls
`saveDb(db)` — whose Boolean success result is discarded — and then
`process.exit(0)`.  `saveOk` is the outcome of that final `saveDb` call
(`saveDb` in `src/db/db.js` returns `true` on a successful
write-temp-then-rename, `false` when the write threw). -/
def awaitIdleAndExit (saveOk : Bool) : ShutdownOutcome :=
  { snapshotAttempted := true, exitCode := 0 }

inductive ShutdownAction where
  | exitNow (o : ShutdownOutcome)
  | waitThenExit (o : ShutdownOutcome)
deriving DecidableEq, Repr

/-- Translation of the quiescence part of `initiateShutdown`
(`src/worker/lifecycle.js`): with no job processing it runs
`awaitIdleAndExit` at once, otherwise it waits for the manager's `idle`
event (emitted when the binding map empties) and runs it then.  `saveOk`
is the outcome of the eventual final save. -/
def initiateShutdownAction (processingCount : Nat) (saveOk : Bool) :
    ShutdownAction :=
  if processingCount = 0 then ShutdownAction.exitNow (awaitIdleAndExit saveOk)
  else ShutdownAction.waitThenExit (awaitIdleAndExit saveOk)

/-- Whole-system state for the core transition system: the in-memory config
object, the jobs table in row order, the available-worker queue, the
worker-to-dispatched-job binding map (`workerJobMap`, with the job row as it
was sent to the worker), and the `isShuttingDown` flag. -/
structure Sys where
  cfg : Config
  jobs : List Job
  idle : List Nat
  bindings : List (Nat × Job)
  shuttingDown : Bool
deriving DecidableEq, Repr

def initSys (cfg : Config) : Sys :=
  { cfg := cfg, jobs := [], idle := [], bindings := [], shuttingDown := false }

/-- `workerJobMap.get(pid)`. -/
def lookupBinding (b : List (Nat × Job)) (w : Nat) : Option Job :=
  (b.find? (fun p => decide (p.1 = w))).map Prod.snd

/-- `workerJobMap.delete(pid)`. -/
def unbind (b : List (Nat × Job)) (w : Nat) : List (Nat × Job) :=
  b.filter (fun p => decide (p.1 ≠ w))

/-- Labels of the core's atomic operations. -/
inductive Label where
  | enqueue (id command : String) (mr : Option Nat) (runAfter now : Nat)
  | tickClaim (now : Nat)
  | replyCompleted (w : Nat) (now : Nat)
  | replyFailed (w : Nat) (now : Nat)
  | workerExit (w : Nat) (now : Nat)
  | workerReady (w : Nat)
  | requeueOne (id : String) (now : Nat)
  | requeueAll (now : Nat)
  | configSet (c : Config)
  | beginShutdown
deriving DecidableEq, Repr

def isRequeue : Label → Bool
  | Label.requeueOne _ _ => true
  | Label.requeueAll _ => true
  | _ => false

/-- One atomic operation of the single-threaded core.  Each constructor is
translated from the corresponding handler:

* `enqueue` — `enqueueJob` via `POST /enqueue` (guarded by the shutdown flag;
  an id collision throws inside the INSERT and changes nothing, so only the
  fresh-id case is a transition; generated ids are never empty);
* `tickClaim` — `tick`: needs an available worker, claims the row selected
  by `claimNext`, marks it processing and records the binding with the job
  row as sent to the worker;
* `replyCompleted` / `replyFailed` — `handleWorkerMessage` for a terminal
  reply from a bound worker, which echoes back the job row it was sent;
* `workerExitBound` / `workerExitFree` — the `exit` handler of
  `spawnWorker`: remove the worker from the available queue, reset its bound
  job (if any) with `resetStuckJob`, drop the binding;
* `workerReady` — a `ready` message pushes the (newly spawned) worker;
* `requeueOne` / `requeueAll` — the DLQ routes in their mutating cases;
* `configSet` — `POST /config` replacing the in-memory config (note: not
  guarded by the shutdown flag);
* `beginShutdown` — `initiateShutdown` setting `isShuttingDown`. -/
inductive Step : Label → Sys → Sys → Prop where
  | enqueue {s : Sys} {id command : String} {mr : Option Nat} {runAfter now : Nat} :
      s.shuttingDown = false → id ≠ "" → (∀ j ∈ s.jobs, j.id ≠ id) →
      Step (Label.enqueue id command mr runAfter now) s
        { s with jobs := s.jobs ++ [newJob id command mr runAfter now] }
  | tickClaim {s : Sys} {now : Nat} {w : Nat} {rest : List Nat} {j : Job} :
      s.shuttingDown = false → s.idle = w :: rest →
      claimNext now s.jobs = some j →
      Step (Label.tickClaim now) s
        { s with jobs := updateJob s.jobs j.id (setProcessing now),
                 idle := rest, bindings := (w, j) :: s.bindings }
  | replyCompleted {s : Sys} {w : Nat} {j : Job} {now : Nat} :
      (w, j) ∈ s.bindings →
      Step (Label.replyCompleted w now) s
        { s with jobs := completeUpdate s.jobs j.id now,
                 bindings := unbind s.bindings w,
                 idle := s.idle ++ [w] }
  | replyFailed {s : Sys} {w : Nat} {j : Job} {now : Nat} :
      (w, j) ∈ s.bindings →
      Step (Label.replyFailed w now) s
        { s with jobs := failUpdate s.cfg s.jobs j.id j.attempts j.max_retries now,
                 bindings := unbind s.bindings w,
                 idle := s.idle ++ [w] }
  | workerExitBound {s : Sys} {w : Nat} {j : Job} {now : Nat} :
      lookupBinding s.bindings w = some j →
      Step (Label.workerExit w now) s
        { s with jobs := resetProcessing s.jobs j.id now,
                 bindings := unbind s.bindings w,
                 idle := s.idle.filter (fun x => decide (x ≠ w)) }
  | workerExitFree {s : Sys} {w : Nat} {now : Nat} :
      lookupBinding s.bindings w = none →
      Step (Label.workerExit w now) s
        { s with bindings := unbind s.bindings w,
                 idle := s.idle.filter (fun x => decide (x ≠ w)) }
  | workerReady {s : Sys} {w : Nat} :
      Step (Label.workerReady w) s { s with idle := s.idle ++ [w] }
  | requeueOne {s : Sys} {id : String} {now : Nat} :
      s.shuttingDown = false → isBlank id = false →
      Step (Label.requeueOne id now) s
        { s with jobs := requeueOneUpdate id now s.jobs }
  | requeueAll {s : Sys} {now : Nat} :
      s.shuttingDown = false →
      Step (Label.requeueAll now) s
        { s with jobs := requeueAllUpdate now s.jobs }
  | configSet {s : Sys} {c : Config} :
      Step (Label.configSet c) s { s with cfg := c }
  | beginShutdown {s : Sys} :
      Step Label.beginShutdown s { s with shuttingDown := true }

/-- States reachable from a fresh store (empty tables, no workers yet). -/
inductive Reachable : Sys → Prop where
  | init (cfg : Config) : Reachable (initSys cfg)
  | step {s s' : Sys} {l : Label} : Reachable s → Step l s s' → Reachable s'

/-- The inductive invariant of the core: job ids are non-empty and unique
(PRIMARY KEY plus id generation), every bound worker's dispatched job
corresponds to a live row in state `processing` carrying the same attempts
count, and no two workers are bound to the same job. -/
structure Inv (s : Sys) : Prop where
  idsNonempty : ∀ j ∈ s.jobs, j.id ≠ ""
  nodupIds : (s.jobs.map Job.id).Nodup
  bound : ∀ p ∈ s.bindings, ∃ row ∈ s.jobs,
    row.id = p.2.id ∧ row.state = JState.processing ∧ row.attempts = p.2.attempts
  nodupBound : (s.bindings.map (fun p => p.2.id)).Nodup

/-- Concrete configuration used by the closed witness instances below:
`max_retries = 3`, `backoff_base = 2`, `backoff_factor_ms = 100`. -/
def cfgW : Config := { max_retries := 3, backoff_base := 2, backoff_factor_ms := 100 }

def jobA0 : Job :=
  { id := "a", command := "echo hi", state := JState.pending, attempts := 0,
    max_retries := none, run_after := 0, created_at := 10, updated_at := 10 }

def jobA1 : Job := { jobA0 with state := JState.processing, updated_at := 20 }

def jobA2 : Job := { jobA1 with state := JState.completed, updated_at := 30 }

def jobA3 : Job :=
  { id := "a", command := "echo hi", state := JState.pending, attempts := 1,
    max_retries := none, run_after := 230, created_at := 10, updated_at := 30 }

def sysW1 : Sys := { cfg := cfgW, jobs := [], idle := [7], bindings := [], shuttingDown := false }

def sysW2 : Sys := { sysW1 with jobs := [jobA0] }

def sysW3 : Sys := { cfg := cfgW, jobs := [jobA1], idle := [], bindings := [(7, jobA0)], shuttingDown := false }

def sysW4 : Sys := { cfg := cfgW, jobs := [jobA2], idle := [7], bindings := [], shuttingDown := false }

def sysW5 : Sys := { sysW4 with shuttingDown := true }

def sysW3f : Sys := { cfg := cfgW, jobs := [jobA3], idle := [7], bindings := [], shuttingDown := false }

/-- Two eligible rows with equal `created_at`, inserted in the order "b"
then "a": row order and id order disagree on the tie. -/
def jobTieB : Job :=
  { id := "b", command := "echo", state := JState.pending, attempts := 0,
    max_retries := none, run_after := 0, created_at := 5, updated_at := 5 }

def jobTieA : Job :=
  { id := "a", command := "echo", state := JState.pending, attempts := 0,
    max_retries := none, run_after := 0, created_at := 5, updated_at := 5 }

/-- A DLQ row with a non-zero attempts count. -/
def jobDeadX : Job :=
  { id := "x", command := "exit 1", state := JState.dead, attempts := 3,
    max_retries := none, run_after := 900, created_at := 1, updated_at := 2 }

/-- A processing row about to receive a completed reply. -/
def jobProcY : Job :=
  { id := "y", command := "echo", state := JState.processing, attempts := 0,
    max_retries := none, run_after := 0, created_at := 1, updated_at := 2 }

theorem runFailures_attempts (cfg : Config) (mr : Option Nat) (now : Nat) :
    ∀ n, (runFailures cfg mr now n).2 = n := by
  intro n
  induction n with
  | zero => rfl
  | succ k ih => simp [runFailures, failOutcome, ih]

theorem runFailures_state (cfg : Config) (mr : Option Nat) (now : Nat) (n : Nat) :
    (runFailures cfg mr now n).1 =
      if n ≤ mr.getD cfg.max_retries ∨ n = 0 then JState.pending else JState.dead := by
  cases n with
  | zero => simp [runFailures]
  | succ k =>
    have ha := runFailures_attempts cfg mr now k
    simp only [runFailures, failOutcome, ha]
    by_cases h : k + 1 > mr.getD cfg.max_retries
    · simp [h, Nat.not_le.mpr h]
    · have h' : k + 1 ≤ mr.getD cfg.max_retries := Nat.not_lt.mp h
      simp [h, h']

theorem mem_updateWhere_iff {p : Job → Prop} [DecidablePred p] {g : Job → Job}
    {jobs : List Job} {j' : Job} :
    j' ∈ updateWhere p g jobs ↔ ∃ j ∈ jobs, j' = if p j then g j else j := by
  simp only [updateWhere, List.mem_map]
  constructor
  · rintro ⟨j, hj, rfl⟩
    exact ⟨j, hj, rfl⟩
  · rintro ⟨j, hj, rfl⟩
    exact ⟨j, hj, rfl⟩

theorem mem_updateWhere_of_not {p : Job → Prop} [DecidablePred p] {g : Job → Job}
    {jobs : List Job} {j : Job} (hj : j ∈ jobs) (h : ¬ p j) :
    j ∈ updateWhere p g jobs :=
  mem_updateWhere_iff.mpr ⟨j, hj, (if_neg h).symm⟩

theorem mem_updateWhere_of {p : Job → Prop} [DecidablePred p] {g : Job → Job}
    {jobs : List Job} {j : Job} (hj : j ∈ jobs) (h : p j) :
    g j ∈ updateWhere p g jobs :=
  mem_updateWhere_iff.mpr ⟨j, hj, (if_pos h).symm⟩

theorem updateWhere_eq_self {p : Job → Prop} [DecidablePred p] {g : Job → Job}
    {jobs : List Job} (h : ∀ j ∈ jobs, ¬ p j) : updateWhere p g jobs = jobs := by
  unfold updateWhere
  calc jobs.map (fun j => if p j then g j else j)
      = jobs.map (fun j => j) := List.map_congr_left (fun j hj => if_neg (h j hj))
    _ = jobs := List.map_id' jobs

theorem updateWhere_map_id {p : Job → Prop} [DecidablePred p] {g : Job → Job}
    {jobs : List Job} (hg : ∀ x, (g x).id = x.id) :
    (updateWhere p g jobs).map Job.id = jobs.map Job.id := by
  unfold updateWhere
  rw [List.map_map]
  exact List.map_congr_left (fun j _ => by by_cases h : p j <;> simp [h, hg])

theorem mem_updateJob_iff {jobs : List Job} {id : String} {f : Job → Job} {j' : Job} :
    j' ∈ updateJob jobs id f ↔ ∃ j ∈ jobs, j' = if j.id = id then f j else j :=
  mem_updateWhere_iff

theorem mem_updateJob_of_ne {jobs : List Job} {id : String} {f : Job → Job}
    {j : Job} (hj : j ∈ jobs) (h : j.id ≠ id) : j ∈ updateJob jobs id f :=
  mem_updateWhere_of_not hj h

theorem mem_updateJob_of_eq {jobs : List Job} {id : String} {f : Job → Job}
    {j : Job} (hj : j ∈ jobs) (h : j.id = id) : f j ∈ updateJob jobs id f :=
  mem_updateWhere_of hj h

theorem updateJob_eq_self {jobs : List Job} {id : String} {f : Job → Job}
    (h : ∀ j ∈ jobs, j.id ≠ id) : updateJob jobs id f = jobs :=
  updateWhere_eq_self h

theorem updateJob_map_id {jobs : List Job} {id : String} {f : Job → Job}
    (hf : ∀ x, (f x).id = x.id) :
    (updateJob jobs id f).map Job.id = jobs.map Job.id :=
  updateWhere_map_id hf

theorem nodup_id_inj {jobs : List Job} (h : (jobs.map Job.id).Nodup)
    {j k : Job} (hj : j ∈ jobs) (hk : k ∈ jobs) (hid : j.id = k.id) : j = k :=
  List.inj_on_of_nodup_map h hj hk hid

theorem pickMin_mem (b : Job) (l : List Job) : pickMin b l ∈ b :: l := by
  induction l generalizing b with
  | nil => simp [pickMin]
  | cons j rest ih =>
    have h := ih (if j.created_at < b.created_at then j else b)
    simp only [pickMin]
    rcases List.mem_cons.mp h with h' | h'
    · rw [h']
      by_cases hlt : j.created_at < b.created_at
      · rw [if_pos hlt]
        exact List.mem_cons_of_mem _ (List.mem_cons_self _ _)
      · rw [if_neg hlt]
        exact List.mem_cons_self _ _
    · exact List.mem_cons_of_mem _ (List.mem_cons_of_mem _ h')

theorem pickMin_le (b : Job) (l : List Job) :
    ∀ k ∈ b :: l, (pickMin b l).created_at ≤ k.created_at := by
  induction l generalizing b with
  | nil =>
    intro k hk
    rcases List.mem_cons.mp hk with h | h
    · subst h
      exact Nat.le_refl _
    · simp at h
  | cons j rest ih =>
    intro k hk
    have h1 : (if j.created_at < b.created_at then j else b).created_at ≤ b.created_at := by
      by_cases hlt : j.created_at < b.created_at
      · rw [if_pos hlt]
        exact Nat.le_of_lt hlt
      · rw [if_neg hlt]
    have h2 : (if j.created_at < b.created_at then j else b).created_at ≤ j.created_at := by
      by_cases hlt : j.created_at < b.created_at
      · rw [if_pos hlt]
      · rw [if_neg hlt]
        exact Nat.le_of_not_lt hlt
    have hbb : (pickMin (if j.created_at < b.created_at then j else b) rest).created_at ≤
        (if j.created_at < b.created_at then j else b).created_at :=
      ih _ _ (List.mem_cons_self _ _)
    simp only [pickMin]
    rcases List.mem_cons.mp hk with h | h
    · subst h
      exact Nat.le_trans hbb h1
    · rcases List.mem_cons.mp h with h' | h'
      · subst h'
        exact Nat.le_trans hbb h2
      · exact ih _ k (List.mem_cons_of_mem _ h')

theorem pickMin_first (b : Job) (l : List Job) :
    ∃ l1 l2, b :: l = l1 ++ pickMin b l :: l2 ∧
      ∀ k ∈ l1, (pickMin b l).created_at < k.created_at := by
  induction l generalizing b with
  | nil => exact ⟨[], [], by simp [pickMin], by simp⟩
  | cons j rest ih =>
    by_cases hlt : j.created_at < b.created_at
    · simp only [pickMin, if_pos hlt]
      obtain ⟨l1, l2, hsplit, hgt⟩ := ih j
      cases l1 with
      | nil =>
        simp only [List.nil_append] at hsplit
        injection hsplit with hj hl2
        refine ⟨[b], l2, ?_, ?_⟩
        · rw [List.cons_append, List.nil_append, ← hj, hl2]
        · intro k hk
          rcases List.mem_singleton.mp hk with rfl
          rw [← hj]
          exact hlt
      | cons x l1' =>
        simp only [List.cons_append] at hsplit
        injection hsplit with hx hrest
        refine ⟨b :: x :: l1', l2, ?_, ?_⟩
        · simp only [List.cons_append]
          rw [← hx, ← hrest]
        · intro k hk
          rcases List.mem_cons.mp hk with rfl | hk'
          · have hjlt : (pickMin j rest).created_at < j.created_at := by
              apply hgt
              rw [← hx]
              exact List.mem_cons_self _ _
            exact Nat.lt_trans hjlt hlt
          · exact hgt k hk'
    · simp only [pickMin, if_neg hlt]
      obtain ⟨l1, l2, hsplit, hgt⟩ := ih b
      cases l1 with
      | nil =>
        simp only [List.nil_append] at hsplit
        injection hsplit with hb hl2
        refine ⟨[], j :: rest, ?_, by simp⟩
        rw [List.nil_append, ← hb]
      | cons x l1' =>
        simp only [List.cons_append] at hsplit
        injection hsplit with hx hrest
        refine ⟨b :: j :: l1', l2, ?_, ?_⟩
        · simp only [List.cons_append]
          rw [← hrest]
        · intro k hk
          rcases List.mem_cons.mp hk with rfl | hk'
          · apply hgt
            rw [← hx]
            exact List.mem_cons_self _ _
          · rcases List.mem_cons.mp hk' with rfl | hk''
            · have hblt : (pickMin b rest).created_at < b.created_at := by
                apply hgt
                rw [← hx]
                exact List.mem_cons_self _ _
              exact Nat.lt_of_lt_of_le hblt (Nat.le_of_not_lt hlt)
            · exact hgt k (List.mem_cons_of_mem _ hk'')

theorem claimNext_mem_eligible {now : Nat} {jobs : List Job} {j : Job}
    (h : claimNext now jobs = some j) : j ∈ jobs ∧ eligible now j = true := by
  unfold claimNext at h
  cases hf : jobs.filter (eligible now) with
  | nil => rw [hf] at h; exact absurd h (by simp)
  | cons b rest =>
    rw [hf] at h
    have hj : j = pickMin b rest := by
      simpa using h.symm
    have hmem : j ∈ b :: rest := hj ▸ pickMin_mem b rest
    rw [← hf] at hmem
    exact ⟨List.mem_of_mem_filter hmem, List.of_mem_filter hmem⟩

theorem claimNext_minimal {now : Nat} {jobs : List Job} {j : Job}
    (h : claimNext now jobs = some j) :
    ∀ k ∈ jobs, eligible now k = true → j.created_at ≤ k.created_at := by
  intro k hk hke
  unfold claimNext at h
  cases hf : jobs.filter (eligible now) with
  | nil => rw [hf] at h; exact absurd h (by simp)
  | cons b rest =>
    rw [hf] at h
    have hj : j = pickMin b rest := by simpa using h.symm
    have hkf : k ∈ b :: rest := by
      rw [← hf]
      exact List.mem_filter.mpr ⟨hk, hke⟩
    exact hj ▸ pickMin_le b rest k hkf

theorem claimNext_pending {now : Nat} {jobs : List Job} {j : Job}
    (h : claimNext now jobs = some j) : j.state = JState.pending := by
  have := (claimNext_mem_eligible h).2
  simp only [eligible, decide_eq_true_eq] at this
  exact this.1

/-- C1: For every failed reply for a job J, the new attempt count is
J.attempts + 1 and the effective retry cap is J.max_retries when non-null
(`mr.getD cfg.max_retries`), otherwise the global config max_retries; the
job's new state is dead exactly when the new attempt count exceeds that cap,
and otherwise pending; consequently a job that fails on every attempt is
still pending (with attempts = n) after any n ≤ cap failures and reaches
dead at failure number cap + 1, i.e. after exactly effectiveMaxRetries + 1
attempts. -/
theorem failed_reply_retry_policy (cfg : Config) (a : Nat) (mr : Option Nat)
    (now n : Nat) :
    (failOutcome cfg a mr now).newAttempts = a + 1 ∧
    ((failOutcome cfg a mr now).newState = JState.dead ↔
      a + 1 > mr.getD cfg.max_retries) ∧
    ((failOutcome cfg a mr now).newState = JState.pending ↔
      a + 1 ≤ mr.getD cfg.max_retries) ∧
    (runFailures cfg mr now (mr.getD cfg.max_retries + 1)).1 = JState.dead ∧
    (n ≤ mr.getD cfg.max_retries → (runFailures cfg mr now n).1 = JState.pending) ∧
    (runFailures cfg mr now n).2 = n := by
  refine ⟨rfl, ?_, ?_, ?_, ?_, runFailures_attempts cfg mr now n⟩
  · by_cases h : a + 1 > mr.getD cfg.max_retries
    · simp [failOutcome, h]
    · simp [failOutcome, h]
  · by_cases h : a + 1 > mr.getD cfg.max_retries
    · have h2 : ¬ (a + 1 ≤ mr.getD cfg.max_retries) := Nat.not_le.mpr h
      simp [failOutcome, h, h2]
    · have h2 : a + 1 ≤ mr.getD cfg.max_retries := Nat.not_lt.mp h
      simp [failOutcome, h, h2]
  · rw [runFailures_state]
    have hno : ¬(mr.getD cfg.max_retries + 1 ≤ mr.getD cfg.max_retries ∨
        mr.getD cfg.max_retries + 1 = 0) := by omega
    rw [if_neg hno]
  · intro hn
    rw [runFailures_state]
    rw [if_pos (Or.inl hn)]

/-- Witness for C1: with the concrete config (cap 3), after 2 failures the
job is still pending, and the failOutcome equivalences hold at attempts 2. -/
theorem failed_reply_retry_policy_witness :
    (2 ≤ (none : Option Nat).getD cfgW.max_retries) ∧
    (runFailures cfgW none 50 2).1 = JState.pending ∧
    (runFailures cfgW none 50 4).1 = JState.dead :=
  ⟨by decide,
   (failed_reply_retry_policy cfgW 2 none 50 2).2.2.2.2.1 (by decide),
   (failed_reply_retry_policy cfgW 2 none 50 2).2.2.2.1⟩

/-- C4 (amended): for every failed reply that leaves the job retryable
(new attempts within the cap), the new state is pending with
run_after = now + backoff_base ^ newAttempts * backoff_factor_ms, computed
exactly (integer-valued in the double-precision range); no saturation and
no one-day clamp is applied to the result. -/
theorem retryable_failure_backoff (cfg : Config) (a : Nat) (mr : Option Nat)
    (now : Nat) (h : a + 1 ≤ mr.getD cfg.max_retries) :
    (failOutcome cfg a mr now).newState = JState.pending ∧
    (failOutcome cfg a mr now).newRunAfter =
      now + cfg.backoff_base ^ (a + 1) * cfg.backoff_factor_ms := by
  constructor
  · have h2 : ¬ (a + 1 > mr.getD cfg.max_retries) := Nat.not_lt.mpr h
    simp [failOutcome, h2]
  · rfl

/-- Witness for C4's amended statement at attempts 0, cap 3, now 30. -/
theorem retryable_failure_backoff_witness :
    (0 + 1 ≤ (none : Option Nat).getD cfgW.max_retries) ∧
    (failOutcome cfgW 0 none 30).newState = JState.pending ∧
    (failOutcome cfgW 0 none 30).newRunAfter =
      30 + cfgW.backoff_base ^ (0 + 1) * cfgW.backoff_factor_ms :=
  ⟨by decide,
   (retryable_failure_backoff cfgW 0 none 30 (by decide)).1,
   (retryable_failure_backoff cfgW 0 none 30 (by decide)).2⟩

/-- C4 counterexample: with max_retries 30, backoff_base 2 and
backoff_factor_ms 100, the 21st attempt is retryable (21 ≤ 30) and the
computed run_after is now + 2^21·100 = now + 209,715,200 ms, which exceeds
now + one day (86,400,000 ms): the claimed one-day clamp does not exist in
the code. -/
theorem backoff_no_one_day_clamp_counterexample :
    (failOutcome { max_retries := 30, backoff_base := 2, backoff_factor_ms := 100 }
      20 none 0).newState = JState.pending ∧
    (failOutcome { max_retries := 30, backoff_base := 2, backoff_factor_ms := 100 }
      20 none 0).newRunAfter = 209715200 ∧
    209715200 > 0 + 86400000 := by
  refine ⟨by decide, by decide, by decide⟩

/-- C5 (amended): when `claimNext` returns a job, that job is a pending row
with run_after ≤ now, its created_at is minimal among all such rows, it is
the first row in table (insertion) order among the eligible rows attaining
that minimum — ties on created_at are broken by row order, not by id — and
the tick transitions exactly that job to processing, setting its updated_at
to now and leaving every other row unchanged. -/
theorem claim_next_selects (now : Nat) (jobs : List Job) (j : Job)
    (idleCount : Nat) (h : claimNext now jobs = some j) :
    (j ∈ jobs ∧ j.state = JState.pending ∧ j.run_after ≤ now) ∧
    (∀ k ∈ jobs, k.state = JState.pending → k.run_after ≤ now →
      j.created_at ≤ k.created_at) ∧
    (∃ l1 l2, jobs.filter (eligible now) = l1 ++ j :: l2 ∧
      ∀ k ∈ l1, j.created_at < k.created_at) ∧
    tickJobs false (idleCount + 1) now jobs =
      jobs.map (fun k => if k.id = j.id then setProcessing now k else k) := by
  have hme := claimNext_mem_eligible h
  have hel := hme.2
  simp only [eligible, decide_eq_true_eq] at hel
  refine ⟨⟨hme.1, hel⟩, ?_, ?_, ?_⟩
  · intro k hk hkp hkr
    exact claimNext_minimal h k hk (by simp [eligible, hkp, hkr])
  · unfold claimNext at h
    cases hf : jobs.filter (eligible now) with
    | nil =>
      rw [hf] at h
      exact absurd h (by simp)
    | cons b rest =>
      rw [hf] at h
      have hj : pickMin b rest = j := by simpa using h
      obtain ⟨l1, l2, hs, hgt⟩ := pickMin_first b rest
      refine ⟨l1, l2, ?_, ?_⟩
      · rw [← hj]
        exact hs
      · intro k hk
        rw [← hj]
        exact hgt k hk
  · unfold tickJobs
    rw [if_neg (by simp), h]
    rfl

/-- Witness for C5's amended statement on a one-row table. -/
theorem claim_next_selects_witness :
    claimNext 20 [jobA0] = some jobA0 ∧
    (jobA0 ∈ [jobA0] ∧ jobA0.state = JState.pending ∧ jobA0.run_after ≤ 20) ∧
    tickJobs false 1 20 [jobA0] =
      [jobA0].map (fun k => if k.id = jobA0.id then setProcessing 20 k else k) :=
  ⟨by decide,
   (claim_next_selects 20 [jobA0] jobA0 0 (by decide)).1,
   (claim_next_selects 20 [jobA0] jobA0 0 (by decide)).2.2.2⟩

/-- C5 counterexample: two eligible rows with equal created_at inserted in
the order "b" then "a".  The SQL `ORDER BY created_at ASC LIMIT 1` carries
no secondary key, so the scan returns the first row "b"; the claimed
id-lexicographic tie-break would have selected "a". -/
theorem claim_next_tie_break_counterexample :
    claimNext 10 [jobTieB, jobTieA] = some jobTieB ∧
    specClaimNext 10 [jobTieB, jobTieA] = some jobTieA ∧
    jobTieB.id ≠ jobTieA.id := by
  refine ⟨by decide, by decide, by decide⟩

/-- C6 (amended): once the shutting-down flag is set, enqueue and both DLQ
requeue operations are refused with a 503 "server is shutting down" error
and leave the store unchanged, while the read operations (list, status, DLQ
list, config get) behave exactly as when not shutting down; the config-set
handler, however, performs no shutting-down check at all, so its behaviour
is identical whether or not the flag is set. -/
theorem shutdown_guard_behaviour (now : Nat) (jobs : List Job)
    (d : EnqueueData) (id : String) (store : List (String × Int))
    (key : String) (v : Int) (f : Option JState) :
    enqueueRoute true now jobs d = (503, jobs) ∧
    dlqRetryOne true id now jobs = (503, jobs) ∧
    dlqRetryAll true now jobs = (503, jobs) ∧
    listRoute true f jobs = (200, getJobs f jobs) ∧
    dlqListRoute true jobs = (200, getJobs (some JState.dead) jobs) ∧
    statusRoute true jobs = (200, statusCounts jobs) ∧
    configGetRoute true store key = configGetRoute false store key ∧
    configSetRoute true store key v = configSetRoute false store key v := by
  refine ⟨?_, ?_, ?_, rfl, rfl, rfl, rfl, rfl⟩
  · simp [enqueueRoute]
  · simp [dlqRetryOne]
  · simp [dlqRetryAll]

/-- C6 counterexample: while shutting down, a valid config-set request for
max_retries = 5 succeeds with 200 and replaces the stored value: it is
neither refused with 503 nor does it leave the store unchanged. -/
theorem config_set_not_guarded_counterexample :
    (configSetRoute true [("max_retries", 10)] "max_retries" 5).1 = 200 ∧
    (configSetRoute true [("max_retries", 10)] "max_retries" 5).2 =
      [("max_retries", 5)] ∧
    (configSetRoute true [("max_retries", 10)] "max_retries" 5).1 ≠ 503 ∧
    (configSetRoute true [("max_retries", 10)] "max_retries" 5).2 ≠
      [("max_retries", 10)] := by
  refine ⟨by decide, by decide, by decide, by decide⟩

/-- C7 (amended): during graceful shutdown the controller exits immediately
when the processing count is zero and otherwise waits for the idle event;
the final step always attempts a snapshot and then exits with code 0,
whether or not the snapshot write succeeded. -/
theorem shutdown_final_snapshot_exit (saveOk : Bool) (n : Nat) :
    (awaitIdleAndExit saveOk).snapshotAttempted = true ∧
    (awaitIdleAndExit saveOk).exitCode = 0 ∧
    initiateShutdownAction 0 saveOk =
      ShutdownAction.exitNow (awaitIdleAndExit saveOk) ∧
    (0 < n → initiateShutdownAction n saveOk =
      ShutdownAction.waitThenExit (awaitIdleAndExit saveOk)) := by
  refine ⟨rfl, rfl, rfl, ?_⟩
  intro hn
  unfold initiateShutdownAction
  rw [if_neg (Nat.pos_iff_ne_zero.mp hn)]

/-- Witness for C7's amended statement: a failing final save still exits
with code 0, and a positive processing count defers the exit. -/
theorem shutdown_final_snapshot_exit_witness :
    (awaitIdleAndExit false).exitCode = 0 ∧
    (0 < 2 ∧ initiateShutdownAction 2 false =
      ShutdownAction.waitThenExit (awaitIdleAndExit false)) :=
  ⟨(shutdown_final_snapshot_exit false 2).2.1,
   by decide,
   (shutdown_final_snapshot_exit false 2).2.2.2 (by decide)⟩

/-- C7 counterexample: when the final snapshot write fails
(saveDb returns false), the process still exits with code 0 — not with a
non-zero code as claimed. -/
theorem final_snapshot_failure_exit_zero_counterexample :
    (awaitIdleAndExit false).exitCode = 0 ∧ ¬ (awaitIdleAndExit false).exitCode ≠ 0 :=
  ⟨rfl, fun h => h rfl⟩

/-- C8: the crash-recovery reset rewrites row i to pending (bumping only
updated_at) exactly when that row's id matches and its current state is
processing — every other field (id, command, attempts, max_retries,
run_after, created_at) is preserved, so in particular a worker crash does
not increment attempts — and any row not matching both conditions is left
entirely unchanged. -/
theorem reset_processing_frame (jobs : List Job) (id : String) (now : Nat)
    (i : Nat) (hi : i < jobs.length)
    (hi' : i < (resetProcessing jobs id now).length) :
    (¬((jobs.get ⟨i, hi⟩).id = id ∧ (jobs.get ⟨i, hi⟩).state = JState.processing) →
      (resetProcessing jobs id now).get ⟨i, hi'⟩ = jobs.get ⟨i, hi⟩) ∧
    ((jobs.get ⟨i, hi⟩).id = id → (jobs.get ⟨i, hi⟩).state = JState.processing →
      ((resetProcessing jobs id now).get ⟨i, hi'⟩).state = JState.pending ∧
      ((resetProcessing jobs id now).get ⟨i, hi'⟩).updated_at = now ∧
      ((resetProcessing jobs id now).get ⟨i, hi'⟩).id = (jobs.get ⟨i, hi⟩).id ∧
      ((resetProcessing jobs id now).get ⟨i, hi'⟩).command = (jobs.get ⟨i, hi⟩).command ∧
      ((resetProcessing jobs id now).get ⟨i, hi'⟩).attempts = (jobs.get ⟨i, hi⟩).attempts ∧
      ((resetProcessing jobs id now).get ⟨i, hi'⟩).max_retries = (jobs.get ⟨i, hi⟩).max_retries ∧
      ((resetProcessing jobs id now).get ⟨i, hi'⟩).run_after = (jobs.get ⟨i, hi⟩).run_after ∧
      ((resetProcessing jobs id now).get ⟨i, hi'⟩).created_at = (jobs.get ⟨i, hi⟩).created_at) := by
  have hget : (resetProcessing jobs id now).get ⟨i, hi'⟩ =
      if (jobs.get ⟨i, hi⟩).id = id ∧ (jobs.get ⟨i, hi⟩).state = JState.processing
      then resetStuck now (jobs.get ⟨i, hi⟩) else jobs.get ⟨i, hi⟩ := by
    simp [resetProcessing, updateWhere, List.getElem_map]
  constructor
  · intro hno
    rw [hget, if_neg hno]
  · intro h1 h2
    rw [hget, if_pos ⟨h1, h2⟩]
    exact ⟨rfl, rfl, rfl, rfl, rfl, rfl, rfl, rfl⟩

/-- Witness for C8 on a one-row table holding a processing job. -/
theorem reset_processing_frame_witness :
    ((resetProcessing [jobA1] "a" 25).get ⟨0, by decide⟩).state = JState.pending ∧
    ((resetProcessing [jobA1] "a" 25).get ⟨0, by decide⟩).attempts =
      ([jobA1].get ⟨0, by decide⟩).attempts ∧
    ((resetProcessing [jobA1] "a" 25).get ⟨0, by decide⟩).updated_at = 25 := by
  have h := (reset_processing_frame [jobA1] "a" 25 0 (by decide) (by decide)).2
    (by decide) (by decide)
  exact ⟨h.1, h.2.2.2.2.1, h.2.1⟩

/-- C9: the DLQ requeue routes.  While shutting down both are refused with
503 and change nothing; a blank id yields 400 with no change; otherwise the
single-id route rewrites exactly the rows with matching id in state dead
(and retry-all exactly the rows in state dead) to pending with attempts 0,
run_after 0 and updated_at = now, leaving every other row unchanged, and
returns 404 (store unchanged) when no row matched, 200 otherwise. -/
theorem dlq_requeue_routes (sd : Bool) (id : String) (now : Nat)
    (jobs : List Job) :
    (sd = true → dlqRetryOne sd id now jobs = (503, jobs) ∧
      dlqRetryAll sd now jobs = (503, jobs)) ∧
    (sd = false → isBlank id = true → dlqRetryOne sd id now jobs = (400, jobs)) ∧
    (sd = false → isBlank id = false →
      (dlqRetryOne sd id now jobs).2 = jobs.map (fun j =>
        if j.id = id ∧ j.state = JState.dead then requeueDead now j else j) ∧
      ((∀ j ∈ jobs, ¬(j.id = id ∧ j.state = JState.dead)) →
        dlqRetryOne sd id now jobs = (404, jobs)) ∧
      ((∃ j ∈ jobs, j.id = id ∧ j.state = JState.dead) →
        (dlqRetryOne sd id now jobs).1 = 200)) ∧
    (sd = false →
      (dlqRetryAll sd now jobs).2 = jobs.map (fun j =>
        if j.state = JState.dead then requeueDead now j else j) ∧
      ((∀ j ∈ jobs, j.state ≠ JState.dead) →
        dlqRetryAll sd now jobs = (404, jobs)) ∧
      ((∃ j ∈ jobs, j.state = JState.dead) →
        (dlqRetryAll sd now jobs).1 = 200)) ∧
    (∀ j : Job, (requeueDead now j).state = JState.pending ∧
      (requeueDead now j).attempts = 0 ∧ (requeueDead now j).run_after = 0 ∧
      (requeueDead now j).updated_at = now ∧ (requeueDead now j).id = j.id ∧
      (requeueDead now j).command = j.command ∧
      (requeueDead now j).max_retries = j.max_retries ∧
      (requeueDead now j).created_at = j.created_at) := by
  refine ⟨?_, ?_, ?_, ?_, fun j => ⟨rfl, rfl, rfl, rfl, rfl, rfl, rfl, rfl⟩⟩
  · intro h
    subst h
    exact ⟨by simp [dlqRetryOne], by simp [dlqRetryAll]⟩
  · intro h1 h2
    subst h1
    unfold dlqRetryOne
    rw [if_neg (by simp), if_pos h2]
  · intro h1 h2
    subst h1
    have hone : dlqRetryOne false id now jobs =
        if jobs.countP (fun j => decide (j.id = id ∧ j.state = JState.dead)) = 0
        then (404, requeueOneUpdate id now jobs)
        else (200, requeueOneUpdate id now jobs) := by
      unfold dlqRetryOne
      rw [if_neg (by simp), if_neg (by simp [h2])]
    refine ⟨?_, ?_, ?_⟩
    · by_cases hc : jobs.countP
          (fun j => decide (j.id = id ∧ j.state = JState.dead)) = 0
      · rw [hone, if_pos hc]
        rfl
      · rw [hone, if_neg hc]
        rfl
    · intro hno
      have hc : jobs.countP (fun j => decide (j.id = id ∧ j.state = JState.dead)) = 0 :=
        List.countP_eq_zero.mpr (fun j hj => by simpa using hno j hj)
      rw [hone, if_pos hc]
      unfold requeueOneUpdate
      rw [updateWhere_eq_self hno]
    · rintro ⟨j0, hj0, hp⟩
      have hc : ¬ jobs.countP (fun j => decide (j.id = id ∧ j.state = JState.dead)) = 0 := by
        intro hc
        have hz := List.countP_eq_zero.mp hc j0 hj0
        simp only [decide_eq_true_eq] at hz
        exact hz hp
      rw [hone, if_neg hc]
  · intro h1
    subst h1
    have hall : dlqRetryAll false now jobs =
        if jobs.countP (fun j => decide (j.state = JState.dead)) = 0
        then (404, requeueAllUpdate now jobs)
        else (200, requeueAllUpdate now jobs) := by
      unfold dlqRetryAll
      rw [if_neg (by simp)]
    refine ⟨?_, ?_, ?_⟩
    · by_cases hc : jobs.countP (fun j => decide (j.state = JState.dead)) = 0
      · rw [hall, if_pos hc]
        rfl
      · rw [hall, if_neg hc]
        rfl
    · intro hno
      have hc : jobs.countP (fun j => decide (j.state = JState.dead)) = 0 :=
        List.countP_eq_zero.mpr (fun j hj => by simpa using hno j hj)
      rw [hall, if_pos hc]
      unfold requeueAllUpdate
      rw [updateWhere_eq_self hno]
    · rintro ⟨j0, hj0, hp⟩
      have hc : ¬ jobs.countP (fun j => decide (j.state = JState.dead)) = 0 := by
        intro hc
        have hz := List.countP_eq_zero.mp hc j0 hj0
        simp only [decide_eq_true_eq] at hz
        exact hz hp
      rw [hall, if_neg hc]

/-- Witness for C9: refusal while shutting down, 404 on a one-row pending
table, and the successful requeue of a dead row on a concrete table. -/
theorem dlq_requeue_routes_witness :
    dlqRetryOne true "x" 5 [jobDeadX] = (503, [jobDeadX]) ∧
    dlqRetryOne false "x" 5 [jobProcY] = (404, [jobProcY]) ∧
    (dlqRetryOne false "x" 5 [jobDeadX, jobProcY]).1 = 200 ∧
    (dlqRetryOne false "x" 5 [jobDeadX, jobProcY]).2 =
      [jobDeadX, jobProcY].map (fun j =>
        if j.id = "x" ∧ j.state = JState.dead then requeueDead 5 j else j) :=
  ⟨((dlq_requeue_routes true "x" 5 [jobDeadX]).1 rfl).1,
   ((dlq_requeue_routes false "x" 5 [jobProcY]).2.2.1 rfl (by decide)).2.1
     (by decide),
   ((dlq_requeue_routes false "x" 5 [jobDeadX, jobProcY]).2.2.1 rfl
     (by decide)).2.2 ⟨jobDeadX, by decide, by decide⟩,
   ((dlq_requeue_routes false "x" 5 [jobDeadX, jobProcY]).2.2.1 rfl
     (by decide)).1⟩

/-- Reduction of the message handler for a terminal message with no job
record attached. -/
theorem handleWorkerMessage_none (cfg : Config) (now : Nat) (s : MgrState)
    (w : Nat) (msg : WMessage) (hnr : msg.status ≠ MsgStatus.ready)
    (hmj : msg.job = none) :
    handleWorkerMessage cfg now s w msg =
      { s with workerQueue := s.workerQueue ++ [w] } := by
  unfold handleWorkerMessage
  rw [if_neg hnr, hmj]

theorem handleWorkerMessage_blank (cfg : Config) (now : Nat) (s : MgrState)
    (w : Nat) (msg : WMessage) (mj : MsgJob) (hnr : msg.status ≠ MsgStatus.ready)
    (hmj : msg.job = some mj) (hid : mj.id = "") :
    handleWorkerMessage cfg now s w msg =
      { s with workerQueue := s.workerQueue ++ [w] } := by
  unfold handleWorkerMessage
  rw [if_neg hnr, hmj]
  exact if_neg (by simp [hid])

theorem handleWorkerMessage_some (cfg : Config) (now : Nat) (s : MgrState)
    (w : Nat) (msg : WMessage) (mj : MsgJob) (hnr : msg.status ≠ MsgStatus.ready)
    (hmj : msg.job = some mj) (hid : mj.id ≠ "") :
    handleWorkerMessage cfg now s w msg =
      { jobs := applyTerminal cfg now s.jobs msg.status mj,
        workerQueue := s.workerQueue ++ [w],
        workerJobMap := s.workerJobMap.filter (fun p => decide (p.1 ≠ w)) } := by
  unfold handleWorkerMessage
  rw [if_neg hnr, hmj]
  exact if_pos hid

/-- C10: a terminal worker reply whose job record is absent, lacks an id, or
carries an id matching no row (such as the worker child's placeholder
"unknown") leaves the jobs table unchanged, and the replying worker is
still pushed back onto the available queue. -/
theorem invalid_reply_keeps_store (cfg : Config) (now : Nat) (s : MgrState)
    (w : Nat) (msg : WMessage) (hnr : msg.status ≠ MsgStatus.ready)
    (hinv : msg.job = none ∨
      ∃ mj, msg.job = some mj ∧ (mj.id = "" ∨ ∀ j ∈ s.jobs, j.id ≠ mj.id)) :
    (handleWorkerMessage cfg now s w msg).jobs = s.jobs ∧
    w ∈ (handleWorkerMessage cfg now s w msg).workerQueue := by
  rcases hinv with hn | ⟨mj, hmj, hcase⟩
  · rw [handleWorkerMessage_none cfg now s w msg hnr hn]
    exact ⟨rfl, by simp⟩
  · rcases hcase with hid | hnomatch
    · rw [handleWorkerMessage_blank cfg now s w msg mj hnr hmj hid]
      exact ⟨rfl, by simp⟩
    · by_cases hid : mj.id = ""
      · rw [handleWorkerMessage_blank cfg now s w msg mj hnr hmj hid]
        exact ⟨rfl, by simp⟩
      · rw [handleWorkerMessage_some cfg now s w msg mj hnr hmj hid]
        refine ⟨?_, by simp⟩
        show applyTerminal cfg now s.jobs msg.status mj = s.jobs
        cases hst : msg.status with
        | ready => exact absurd hst hnr
        | completed =>
          simp only [applyTerminal, completeUpdate]
          exact updateJob_eq_self hnomatch
        | failed =>
          simp only [applyTerminal, failUpdate]
          exact updateJob_eq_self hnomatch

/-- Witness for C10: a failed reply with the placeholder id "unknown"
against a table holding only job "y". -/
theorem invalid_reply_keeps_store_witness :
    (handleWorkerMessage cfgW 40
      { jobs := [jobProcY], workerQueue := [], workerJobMap := [(3, "y")] } 3
      { status := MsgStatus.failed,
        job := some { id := "unknown", attempts := 0, max_retries := none } }).jobs
      = [jobProcY] ∧
    3 ∈ (handleWorkerMessage cfgW 40
      { jobs := [jobProcY], workerQueue := [], workerJobMap := [(3, "y")] } 3
      { status := MsgStatus.failed,
        job := some { id := "unknown", attempts := 0, max_retries := none } }).workerQueue :=
  invalid_reply_keeps_store cfgW 40
    { jobs := [jobProcY], workerQueue := [], workerJobMap := [(3, "y")] } 3
    { status := MsgStatus.failed,
      job := some { id := "unknown", attempts := 0, max_retries := none } }
    (by decide)
    (Or.inr ⟨{ id := "unknown", attempts := 0, max_retries := none }, rfl,
      Or.inr (by decide)⟩)

theorem mem_of_mem_unbind {b : List (Nat × Job)} {w : Nat} {p : Nat × Job}
    (hp : p ∈ unbind b w) : p ∈ b :=
  List.mem_of_mem_filter hp

theorem unbind_key_ne {b : List (Nat × Job)} {w : Nat} {p : Nat × Job}
    (hp : p ∈ unbind b w) : p.1 ≠ w := by
  have h := List.of_mem_filter hp
  simpa using h

theorem unbind_nodup_boundIds {b : List (Nat × Job)} {w : Nat}
    (h : (b.map (fun p => p.2.id)).Nodup) :
    ((unbind b w).map (fun p => p.2.id)).Nodup :=
  List.Nodup.sublist ((List.filter_sublist b).map _) h

theorem lookupBinding_mem {b : List (Nat × Job)} {w : Nat} {j : Job}
    (h : lookupBinding b w = some j) : (w, j) ∈ b := by
  unfold lookupBinding at h
  cases hf : b.find? (fun p => decide (p.1 = w)) with
  | none =>
    rw [hf] at h
    simp at h
  | some p =>
    rw [hf] at h
    have hj : p.2 = j := by simpa using h
    have hpw : p.1 = w := by
      have h2 := List.find?_some hf
      simpa using h2
    have hmem := List.mem_of_find?_eq_some hf
    obtain ⟨p1, p2⟩ := p
    have hpw2 : p1 = w := hpw
    have hj2 : p2 = j := hj
    subst hpw2
    subst hj2
    exact hmem

theorem bound_id_inj {b : List (Nat × Job)} (h : (b.map (fun p => p.2.id)).Nodup)
    {p q : Nat × Job} (hp : p ∈ b) (hq : q ∈ b) (hid : p.2.id = q.2.id) :
    p = q :=
  List.inj_on_of_nodup_map h hp hq hid

theorem updateWhere_idsNonempty {p : Job → Prop} [DecidablePred p]
    {g : Job → Job} {jobs : List Job} (hg : ∀ x, (g x).id = x.id)
    (h : ∀ j ∈ jobs, j.id ≠ "") : ∀ j ∈ updateWhere p g jobs, j.id ≠ "" := by
  intro j' hj'
  obtain ⟨k, hk, hkeq⟩ := mem_updateWhere_iff.mp hj'
  subst hkeq
  by_cases hp : p k
  · rw [if_pos hp, hg]
    exact h k hk
  · rw [if_neg hp]
    exact h k hk

/-- Row analysis of an UPDATE-WHERE whose rewrite preserves ids: in a
duplicate-free table, the row of the new table carrying the id of an old
row j is either the rewrite of j (when j matched the WHERE) or j itself. -/
theorem updateWhere_target {p : Job → Prop} [DecidablePred p] {g : Job → Job}
    {jobs : List Job} (hnodup : (jobs.map Job.id).Nodup) {j j' : Job}
    (hj : j ∈ jobs) (hj' : j' ∈ updateWhere p g jobs) (hid : j'.id = j.id)
    (hg : ∀ x, (g x).id = x.id) :
    (p j ∧ j' = g j) ∨ (¬ p j ∧ j' = j) := by
  obtain ⟨k, hk, hkeq⟩ := mem_updateWhere_iff.mp hj'
  have hkid : j'.id = k.id := by
    by_cases hp : p k
    · rw [hkeq, if_pos hp, hg]
    · rw [hkeq, if_neg hp]
  have hkj : k = j := nodup_id_inj hnodup hk hj (hkid.symm.trans hid)
  subst hkj
  by_cases hp : p k
  · exact Or.inl ⟨hp, by rw [hkeq, if_pos hp]⟩
  · exact Or.inr ⟨hp, by rw [hkeq, if_neg hp]⟩

theorem same_jobs_target {jobs : List Job}
    (hnodup : (jobs.map Job.id).Nodup) {j j' : Job} (hj : j ∈ jobs)
    (hj' : j' ∈ jobs) (hid : j'.id = j.id) : j' = j :=
  nodup_id_inj hnodup hj' hj hid

/-- Invariant preservation for a terminal-reply or crash-reset step: the
jobs table is rewritten at the bound job's id (the WHERE clause implies an
id match) with an id-preserving rewrite, and the worker's binding is
removed. -/
theorem inv_unbind_update {s : Sys} (hi : Inv s) {w : Nat} {j : Job}
    (hb : (w, j) ∈ s.bindings) {pr : Job → Prop} [DecidablePred pr]
    {g : Job → Job} (hg : ∀ x, (g x).id = x.id)
    (hpr : ∀ row, row.id ≠ j.id → ¬ pr row) {idle' : List Nat} :
    Inv { s with jobs := updateWhere pr g s.jobs,
                 bindings := unbind s.bindings w, idle := idle' } := by
  refine ⟨updateWhere_idsNonempty hg hi.idsNonempty, ?_, ?_,
    unbind_nodup_boundIds hi.nodupBound⟩
  · show ((updateWhere pr g s.jobs).map Job.id).Nodup
    rw [updateWhere_map_id hg]
    exact hi.nodupIds
  · intro p hp
    have hpb := mem_of_mem_unbind hp
    have hpw := unbind_key_ne hp
    obtain ⟨row, hrowmem, hrowid, hrowproc, hrowatt⟩ := hi.bound p hpb
    have hpid : p.2.id ≠ j.id := by
      intro he
      have hpe : p = (w, j) := bound_id_inj hi.nodupBound hpb hb he
      rw [hpe] at hpw
      exact hpw rfl
    have hrowne : row.id ≠ j.id := by
      rw [hrowid]
      exact hpid
    exact ⟨row, mem_updateWhere_of_not hrowmem (hpr row hrowne), hrowid,
      hrowproc, hrowatt⟩

/-- Invariant preservation for a table rewrite that touches no processing
row (the DLQ requeues, whose WHERE clause needs state dead). -/
theorem inv_update_nonprocessing {s : Sys} (hi : Inv s) {pr : Job → Prop}
    [DecidablePred pr] {g : Job → Job} (hg : ∀ x, (g x).id = x.id)
    (hpr : ∀ row, row.state = JState.processing → ¬ pr row) :
    Inv { s with jobs := updateWhere pr g s.jobs } := by
  refine ⟨updateWhere_idsNonempty hg hi.idsNonempty, ?_, ?_, hi.nodupBound⟩
  · show ((updateWhere pr g s.jobs).map Job.id).Nodup
    rw [updateWhere_map_id hg]
    exact hi.nodupIds
  · intro p hp
    obtain ⟨row, hrowmem, hrowid, hrowproc, hrowatt⟩ := hi.bound p hp
    exact ⟨row, mem_updateWhere_of_not hrowmem (hpr row hrowproc), hrowid,
      hrowproc, hrowatt⟩

/-- Every atomic operation of the core preserves the inductive invariant. -/
theorem step_inv {l : Label} {s s' : Sys} (hi : Inv s) (hs : Step l s s') :
    Inv s' := by
  cases hs with
  | enqueue hsd hne hfresh =>
    rename_i id command mr runAfter now
    refine ⟨?_, ?_, ?_, hi.nodupBound⟩
    · intro j hj
      rcases List.mem_append.mp hj with h | h
      · exact hi.idsNonempty j h
      · rcases List.mem_singleton.mp h with rfl
        exact hne
    · show ((s.jobs ++ [newJob id command mr runAfter now]).map Job.id).Nodup
      rw [List.map_append]
      refine List.nodup_append.mpr ⟨hi.nodupIds, List.nodup_singleton _, ?_⟩
      intro a ha hb
      rcases List.mem_singleton.mp hb with rfl
      obtain ⟨j, hj, hjid⟩ := List.mem_map.mp ha
      exact hfresh j hj hjid
    · intro p hp
      obtain ⟨row, hrow, hfacts⟩ := hi.bound p hp
      exact ⟨row, List.mem_append_left _ hrow, hfacts⟩
  | tickClaim hsd hidle hclaim =>
    rename_i now w rest j
    have hjmem := (claimNext_mem_eligible hclaim).1
    have hjpend := claimNext_pending hclaim
    refine ⟨?_, ?_, ?_, ?_⟩
    · exact updateWhere_idsNonempty (fun x => rfl) hi.idsNonempty
    · show ((updateJob s.jobs j.id (setProcessing now)).map Job.id).Nodup
      rw [@updateJob_map_id s.jobs j.id (setProcessing now) (fun x => rfl)]
      exact hi.nodupIds
    · intro p hp
      rcases List.mem_cons.mp hp with hwj | hold
      · refine ⟨setProcessing now j, mem_updateJob_of_eq hjmem rfl, ?_⟩
        rw [hwj]
        exact ⟨rfl, rfl, rfl⟩
      · obtain ⟨row, hrowmem, hrowid, hrowproc, hrowatt⟩ := hi.bound p hold
        have hne : row.id ≠ j.id := by
          intro he
          have hrj : row = j := nodup_id_inj hi.nodupIds hrowmem hjmem he
          rw [hrj, hjpend] at hrowproc
          exact JState.noConfusion hrowproc
        exact ⟨row, mem_updateJob_of_ne hrowmem hne, hrowid, hrowproc, hrowatt⟩
    · refine List.nodup_cons.mpr ⟨?_, hi.nodupBound⟩
      intro hmem
      obtain ⟨p, hp, hpid⟩ := List.mem_map.mp hmem
      obtain ⟨row, hrowmem, hrowid, hrowproc, _⟩ := hi.bound p hp
      have hrj : row = j := nodup_id_inj hi.nodupIds hrowmem hjmem
        (by rw [hrowid, hpid])
      rw [hrj, hjpend] at hrowproc
      exact JState.noConfusion hrowproc
  | replyCompleted hb =>
    refine inv_unbind_update hi hb ?_ ?_
    · intro x
      rfl
    · intro row hne hc
      exact hne hc
  | replyFailed hb =>
    refine inv_unbind_update hi hb ?_ ?_
    · intro x
      rfl
    · intro row hne hc
      exact hne hc
  | workerExitBound hlb =>
    refine inv_unbind_update hi (lookupBinding_mem hlb) ?_ ?_
    · intro x
      rfl
    · intro row hne hc
      exact hne hc.1
  | workerExitFree hlb =>
    refine ⟨hi.idsNonempty, hi.nodupIds, ?_, unbind_nodup_boundIds hi.nodupBound⟩
    intro p hp
    exact hi.bound p (mem_of_mem_unbind hp)
  | workerReady =>
    exact ⟨hi.idsNonempty, hi.nodupIds, hi.bound, hi.nodupBound⟩
  | requeueOne hsd hblank =>
    refine inv_update_nonprocessing hi ?_ ?_
    · intro x
      rfl
    · intro row hproc hc
      rw [hproc] at hc
      exact JState.noConfusion hc.2
  | requeueAll hsd =>
    refine inv_update_nonprocessing hi ?_ ?_
    · intro x
      rfl
    · intro row hproc hc
      rw [hproc] at hc
      exact JState.noConfusion hc
  | configSet =>
    exact ⟨hi.idsNonempty, hi.nodupIds, hi.bound, hi.nodupBound⟩
  | beginShutdown =>
    exact ⟨hi.idsNonempty, hi.nodupIds, hi.bound, hi.nodupBound⟩

/-- The inductive invariant holds in every reachable state. -/
theorem reachable_inv {s : Sys} (hr : Reachable s) : Inv s := by
  induction hr with
  | init cfg =>
    refine ⟨?_, ?_, ?_, ?_⟩
    · intro j hj
      exact absurd hj (List.not_mem_nil j)
    · simp [initSys]
    · intro p hp
      exact absurd hp (List.not_mem_nil p)
    · simp [initSys]
  | step hr hstep ih =>
    exact step_inv ih hstep

/-- C3: terminal states are absorbing in every reachable execution: across
any atomic operation of the core, a job whose state is completed still has
state completed afterwards, and a job whose state is dead stays dead unless
the operation is an explicit DLQ requeue, which may set it to pending. -/
theorem terminal_absorbing {l : Label} {s s' : Sys} (hr : Reachable s)
    (hs : Step l s s') {j : Job} (hj : j ∈ s.jobs) {j' : Job}
    (hj' : j' ∈ s'.jobs) (hid : j'.id = j.id) :
    (j.state = JState.completed → j'.state = JState.completed) ∧
    (j.state = JState.dead → j'.state = JState.dead ∨
      (isRequeue l = true ∧ j'.state = JState.pending)) := by
  have hi := reachable_inv hr
  cases hs with
  | enqueue hsd hne hfresh =>
    rename_i id command mr runAfter now
    rcases List.mem_append.mp hj' with h | h
    · have hjj : j' = j := same_jobs_target hi.nodupIds hj h hid
      rw [hjj]
      exact ⟨fun hc => hc, fun hd => Or.inl hd⟩
    · rcases List.mem_singleton.mp h with rfl
      exact absurd hid.symm (hfresh j hj)
  | tickClaim hsd hidle hclaim =>
    rename_i now w rest j0
    have hjmem := (claimNext_mem_eligible hclaim).1
    have hjpend := claimNext_pending hclaim
    rcases updateWhere_target hi.nodupIds hj hj' hid (fun x => rfl) with
      ⟨hpj, heq⟩ | ⟨hnp, heq⟩
    · have hjj0 : j = j0 := nodup_id_inj hi.nodupIds hj hjmem hpj
      have hjp : j.state = JState.pending := by
        rw [hjj0]
        exact hjpend
      refine ⟨fun hc => ?_, fun hd => ?_⟩
      · rw [hjp] at hc
        exact JState.noConfusion hc
      · rw [hjp] at hd
        exact JState.noConfusion hd
    · rw [heq]
      exact ⟨fun hc => hc, fun hd => Or.inl hd⟩
  | replyCompleted hb =>
    rename_i w jb now
    obtain ⟨rowb, hrowbmem, hrowbid, hrowbproc, _⟩ := hi.bound (w, jb) hb
    rcases updateWhere_target hi.nodupIds hj hj' hid (fun x => rfl) with
      ⟨hpj, heq⟩ | ⟨hnp, heq⟩
    · have hjrow : j = rowb := nodup_id_inj hi.nodupIds hj hrowbmem
        (hpj.trans hrowbid.symm)
      have hjproc : j.state = JState.processing := by
        rw [hjrow]
        exact hrowbproc
      refine ⟨fun hc => ?_, fun hd => ?_⟩
      · rw [hjproc] at hc
        exact JState.noConfusion hc
      · rw [hjproc] at hd
        exact JState.noConfusion hd
    · rw [heq]
      exact ⟨fun hc => hc, fun hd => Or.inl hd⟩
  | replyFailed hb =>
    rename_i w jb now
    obtain ⟨rowb, hrowbmem, hrowbid, hrowbproc, _⟩ := hi.bound (w, jb) hb
    rcases updateWhere_target hi.nodupIds hj hj' hid (fun x => rfl) with
      ⟨hpj, heq⟩ | ⟨hnp, heq⟩
    · have hjrow : j = rowb := nodup_id_inj hi.nodupIds hj hrowbmem
        (hpj.trans hrowbid.symm)
      have hjproc : j.state = JState.processing := by
        rw [hjrow]
        exact hrowbproc
      refine ⟨fun hc => ?_, fun hd => ?_⟩
      · rw [hjproc] at hc
        exact JState.noConfusion hc
      · rw [hjproc] at hd
        exact JState.noConfusion hd
    · rw [heq]
      exact ⟨fun hc => hc, fun hd => Or.inl hd⟩
  | workerExitBound hlb =>
    rcases updateWhere_target hi.nodupIds hj hj' hid (fun x => rfl) with
      ⟨hpj, heq⟩ | ⟨hnp, heq⟩
    · refine ⟨fun hc => ?_, fun hd => ?_⟩
      · rw [hpj.2] at hc
        exact JState.noConfusion hc
      · rw [hpj.2] at hd
        exact JState.noConfusion hd
    · rw [heq]
      exact ⟨fun hc => hc, fun hd => Or.inl hd⟩
  | workerExitFree hlb =>
    have hjj : j' = j := same_jobs_target hi.nodupIds hj hj' hid
    rw [hjj]
    exact ⟨fun hc => hc, fun hd => Or.inl hd⟩
  | workerReady =>
    have hjj : j' = j := same_jobs_target hi.nodupIds hj hj' hid
    rw [hjj]
    exact ⟨fun hc => hc, fun hd => Or.inl hd⟩
  | requeueOne hsd hblank =>
    rcases updateWhere_target hi.nodupIds hj hj' hid (fun x => rfl) with
      ⟨hpj, heq⟩ | ⟨hnp, heq⟩
    · refine ⟨fun hc => ?_, fun hd => ?_⟩
      · rw [hpj.2] at hc
        exact JState.noConfusion hc
      · refine Or.inr ⟨rfl, ?_⟩
        rw [heq]
        exact rfl
    · rw [heq]
      exact ⟨fun hc => hc, fun hd => Or.inl hd⟩
  | requeueAll hsd =>
    rcases updateWhere_target hi.nodupIds hj hj' hid (fun x => rfl) with
      ⟨hpj, heq⟩ | ⟨hnp, heq⟩
    · refine ⟨fun hc => ?_, fun hd => ?_⟩
      · rw [hpj] at hc
        exact JState.noConfusion hc
      · refine Or.inr ⟨rfl, ?_⟩
        rw [heq]
        exact rfl
    · rw [heq]
      exact ⟨fun hc => hc, fun hd => Or.inl hd⟩
  | configSet =>
    have hjj : j' = j := same_jobs_target hi.nodupIds hj hj' hid
    rw [hjj]
    exact ⟨fun hc => hc, fun hd => Or.inl hd⟩
  | beginShutdown =>
    have hjj : j' = j := same_jobs_target hi.nodupIds hj hj' hid
    rw [hjj]
    exact ⟨fun hc => hc, fun hd => Or.inl hd⟩

/-- C2 (amended): across every atomic operation other than a DLQ requeue, a
job's attempts field never decreases (a failed reply for the job increments
it by one, every other non-requeue operation leaves it unchanged); a DLQ
requeue either resets a row's attempts to 0 (the dead rows it requeues) or
leaves it unchanged. -/
theorem attempts_monotone {l : Label} {s s' : Sys} (hr : Reachable s)
    (hs : Step l s s') {j : Job} (hj : j ∈ s.jobs) {j' : Job}
    (hj' : j' ∈ s'.jobs) (hid : j'.id = j.id) :
    (isRequeue l = false → j.attempts ≤ j'.attempts) ∧
    (isRequeue l = true → j'.attempts = 0 ∨ j'.attempts = j.attempts) := by
  have hi := reachable_inv hr
  cases hs with
  | enqueue hsd hne hfresh =>
    rename_i id command mr runAfter now
    rcases List.mem_append.mp hj' with h | h
    · have hjj : j' = j := same_jobs_target hi.nodupIds hj h hid
      rw [hjj]
      exact ⟨fun _ => Nat.le_refl _, fun hreq => Bool.noConfusion hreq⟩
    · rcases List.mem_singleton.mp h with rfl
      exact absurd hid.symm (hfresh j hj)
  | tickClaim hsd hidle hclaim =>
    rename_i now w rest j0
    rcases updateWhere_target hi.nodupIds hj hj' hid (fun x => rfl) with
      ⟨hpj, heq⟩ | ⟨hnp, heq⟩
    · rw [heq]
      exact ⟨fun _ => Nat.le_refl _, fun hreq => Bool.noConfusion hreq⟩
    · rw [heq]
      exact ⟨fun _ => Nat.le_refl _, fun hreq => Bool.noConfusion hreq⟩
  | replyCompleted hb =>
    rename_i w jb now
    rcases updateWhere_target hi.nodupIds hj hj' hid (fun x => rfl) with
      ⟨hpj, heq⟩ | ⟨hnp, heq⟩
    · rw [heq]
      exact ⟨fun _ => Nat.le_refl _, fun hreq => Bool.noConfusion hreq⟩
    · rw [heq]
      exact ⟨fun _ => Nat.le_refl _, fun hreq => Bool.noConfusion hreq⟩
  | replyFailed hb =>
    rename_i w jb now
    obtain ⟨rowb, hrowbmem, hrowbid, hrowbproc, hrowbatt⟩ := hi.bound (w, jb) hb
    rcases updateWhere_target hi.nodupIds hj hj' hid (fun x => rfl) with
      ⟨hpj, heq⟩ | ⟨hnp, heq⟩
    · have hjrow : j = rowb := nodup_id_inj hi.nodupIds hj hrowbmem
        (hpj.trans hrowbid.symm)
      have hatt : j.attempts = jb.attempts := by
        rw [hjrow]
        exact hrowbatt
      refine ⟨fun _ => ?_, fun hreq => Bool.noConfusion hreq⟩
      rw [heq]
      show j.attempts ≤ jb.attempts + 1
      rw [hatt]
      exact Nat.le_succ _
    · rw [heq]
      exact ⟨fun _ => Nat.le_refl _, fun hreq => Bool.noConfusion hreq⟩
  | workerExitBound hlb =>
    rcases updateWhere_target hi.nodupIds hj hj' hid (fun x => rfl) with
      ⟨hpj, heq⟩ | ⟨hnp, heq⟩
    · rw [heq]
      exact ⟨fun _ => Nat.le_refl _, fun hreq => Bool.noConfusion hreq⟩
    · rw [heq]
      exact ⟨fun _ => Nat.le_refl _, fun hreq => Bool.noConfusion hreq⟩
  | workerExitFree hlb =>
    have hjj : j' = j := same_jobs_target hi.nodupIds hj hj' hid
    rw [hjj]
    exact ⟨fun _ => Nat.le_refl _, fun hreq => Bool.noConfusion hreq⟩
  | workerReady =>
    have hjj : j' = j := same_jobs_target hi.nodupIds hj hj' hid
    rw [hjj]
    exact ⟨fun _ => Nat.le_refl _, fun hreq => Bool.noConfusion hreq⟩
  | requeueOne hsd hblank =>
    rcases updateWhere_target hi.nodupIds hj hj' hid (fun x => rfl) with
      ⟨hpj, heq⟩ | ⟨hnp, heq⟩
    · rw [heq]
      exact ⟨fun hreq => Bool.noConfusion hreq, fun _ => Or.inl rfl⟩
    · rw [heq]
      exact ⟨fun hreq => Bool.noConfusion hreq, fun _ => Or.inr rfl⟩
  | requeueAll hsd =>
    rcases updateWhere_target hi.nodupIds hj hj' hid (fun x => rfl) with
      ⟨hpj, heq⟩ | ⟨hnp, heq⟩
    · rw [heq]
      exact ⟨fun hreq => Bool.noConfusion hreq, fun _ => Or.inl rfl⟩
    · rw [heq]
      exact ⟨fun hreq => Bool.noConfusion hreq, fun _ => Or.inr rfl⟩
  | configSet =>
    have hjj : j' = j := same_jobs_target hi.nodupIds hj hj' hid
    rw [hjj]
    exact ⟨fun _ => Nat.le_refl _, fun hreq => Bool.noConfusion hreq⟩
  | beginShutdown =>
    have hjj : j' = j := same_jobs_target hi.nodupIds hj hj' hid
    rw [hjj]
    exact ⟨fun _ => Nat.le_refl _, fun hreq => Bool.noConfusion hreq⟩

theorem reachable_sysW1 : Reachable sysW1 := by
  have he : ({ initSys cfgW with idle := (initSys cfgW).idle ++ [7] } : Sys) = sysW1 := by
    decide
  exact he ▸ Reachable.step (Reachable.init cfgW) (@Step.workerReady (initSys cfgW) 7)

theorem reachable_sysW2 : Reachable sysW2 := by
  have hstep : Step (Label.enqueue "a" "echo hi" none 0 10) sysW1
      { sysW1 with jobs := sysW1.jobs ++ [newJob "a" "echo hi" none 0 10] } :=
    @Step.enqueue sysW1 "a" "echo hi" none 0 10 rfl (by decide)
      (fun j hj => absurd hj (List.not_mem_nil j))
  have he : ({ sysW1 with
      jobs := sysW1.jobs ++ [newJob "a" "echo hi" none 0 10] } : Sys) = sysW2 := by
    decide
  exact he ▸ Reachable.step reachable_sysW1 hstep

theorem reachable_sysW3 : Reachable sysW3 := by
  have hstep : Step (Label.tickClaim 20) sysW2
      { sysW2 with
        jobs := updateJob sysW2.jobs jobA0.id (setProcessing 20),
        idle := [],
        bindings := (7, jobA0) :: sysW2.bindings } :=
    @Step.tickClaim sysW2 20 7 [] jobA0 rfl rfl (by decide)
  have he : ({ sysW2 with
      jobs := updateJob sysW2.jobs jobA0.id (setProcessing 20),
      idle := [],
      bindings := (7, jobA0) :: sysW2.bindings } : Sys) = sysW3 := by
    decide
  exact he ▸ Reachable.step reachable_sysW2 hstep

theorem reachable_sysW4 : Reachable sysW4 := by
  have hstep : Step (Label.replyCompleted 7 30) sysW3
      { sysW3 with
        jobs := completeUpdate sysW3.jobs jobA0.id 30,
        bindings := unbind sysW3.bindings 7,
        idle := sysW3.idle ++ [7] } :=
    @Step.replyCompleted sysW3 7 jobA0 30 (by decide)
  have he : ({ sysW3 with
      jobs := completeUpdate sysW3.jobs jobA0.id 30,
      bindings := unbind sysW3.bindings 7,
      idle := sysW3.idle ++ [7] } : Sys) = sysW4 := by
    decide
  exact he ▸ Reachable.step reachable_sysW3 hstep

/-- Witness for C3: along the concrete run ready/enqueue/claim/complete,
the completed job "a" keeps its state across a further step. -/
theorem terminal_absorbing_witness :
    (jobA2.state = JState.completed → jobA2.state = JState.completed) ∧
    (jobA2.state = JState.dead → jobA2.state = JState.dead ∨
      (isRequeue Label.beginShutdown = true ∧ jobA2.state = JState.pending)) := by
  have hstep : Step Label.beginShutdown sysW4 sysW5 := by
    have he : ({ sysW4 with shuttingDown := true } : Sys) = sysW5 := by decide
    exact he ▸ @Step.beginShutdown sysW4
  exact terminal_absorbing reachable_sysW4 hstep (by decide) (by decide) rfl

/-- Witness for C2's amended statement: the failed reply for job "a"
(attempts 0, processing) raises its attempts from 0 to 1. -/
theorem attempts_monotone_witness :
    (isRequeue (Label.replyFailed 7 30) = false →
      jobA1.attempts ≤ jobA3.attempts) ∧
    (isRequeue (Label.replyFailed 7 30) = true →
      jobA3.attempts = 0 ∨ jobA3.attempts = jobA1.attempts) := by
  have hstep : Step (Label.replyFailed 7 30) sysW3 sysW3f := by
    have he : ({ sysW3 with
        jobs := failUpdate sysW3.cfg sysW3.jobs jobA0.id jobA0.attempts
          jobA0.max_retries 30,
        bindings := unbind sysW3.bindings 7,
        idle := sysW3.idle ++ [7] } : Sys) = sysW3f := by
      decide
    exact he ▸ @Step.replyFailed sysW3 7 jobA0 30 (by decide)
  exact attempts_monotone reachable_sysW3 hstep (by decide) (by decide) rfl

/-- C2 counterexample: a DLQ requeue of the dead job "x" (attempts 3)
resets attempts to 0 — a strict decrease — and a completed worker reply is
a worker-reported termination that leaves attempts unchanged at 0 instead
of raising it to 1: attempts neither never-decreases across DLQ requeue nor
equals the number of worker-reported terminations observed for the id. -/
theorem attempts_claims_counterexample :
    ((dlqRetryOne false "x" 5 [jobDeadX]).2.get ⟨0, by decide⟩).attempts = 0 ∧
    jobDeadX.attempts = 3 ∧
    ((applyTerminal cfgW 9 [jobProcY] MsgStatus.completed
      { id := "y", attempts := 0, max_retries := none }).get
        ⟨0, by decide⟩).attempts = 0 ∧
    jobProcY.attempts = 0 := by
  refine ⟨by decide, by decide, by decide, by decide⟩

end Queuectl
